/-
Verification of the emote-resize conversion pipeline (main.go).

The repository is a single Go file in two variants (a baseline build and an
extended build that additionally accepts WebP/WebM at selection time).  The
definitions below shallowly embed, from the source:
  * the path helpers used by the code (`filepath.Ext`, `filepath.Base`,
    `filepath.Dir`, `filepath.Join`/`Clean` with Unix rules,
    `strings.ToLower`, `strings.TrimSuffix`);
  * the size catalog `emoteSizes`;
  * the extension allow-list check from `selectFile` (both variants);
  * the decode dispatch switch from `processImage` (both variants);
  * the `processImage` convert loop, with a small filesystem model and
    failure-injection oracles for the I/O steps.
Third-party / standard-library behavior that the repository only calls
(the `imaging.Fill` transform, the stdlib image decoders and
`image.Decode` content sniffing) is modelled from the spec, marked as such
in doc comments.
-/
import Mathlib

namespace EmoteResize

/-! ## Go string/path helpers (Unix rules, as used by the source) -/

/-- `strings.ToLower` restricted to ASCII, which is all the code compares. -/
def goToLower (s : String) : String := ⟨s.data.map Char.toLower⟩

/-- `strings.HasSuffix`: the last `suf.length` characters of `s` are `suf`. -/
def hasSuffix (s suf : String) : Bool :=
  s.data.reverse.take suf.data.length = suf.data.reverse

/-- `strings.TrimSuffix s suf`: drop `suf` from the end of `s` when present. -/
def trimSuffix (s suf : String) : String :=
  if hasSuffix s suf then s.dropRight suf.length else s

/-- Helper for `filepath.Ext`: walk the reversed character list; stop at a
path separator with no extension, or return `.` plus the accumulated suffix. -/
def extRevAux : List Char → List Char → List Char
  | [], _ => []
  | c :: cs, acc =>
    if c = '/' then []
    else if c = '.' then c :: acc
    else extRevAux cs (c :: acc)

/-- Go `filepath.Ext`: the suffix beginning at the final dot in the final
path element; empty if there is no dot. -/
def filepathExt (p : String) : String := ⟨extRevAux p.data.reverse []⟩

/-- Drop trailing `/` characters. -/
def dropTrailingSlashes (cs : List Char) : List Char :=
  (cs.reverse.dropWhile (· = '/')).reverse

/-- The part after the last `/` (the whole list when there is none). -/
def afterLastSlash (cs : List Char) : List Char :=
  (cs.reverse.takeWhile (· ≠ '/')).reverse

/-- The prefix up to and including the last `/` (empty when there is none). -/
def upToLastSlash (cs : List Char) : List Char :=
  (cs.reverse.dropWhile (· ≠ '/')).reverse

/-- Go `filepath.Base` (Unix): last element of the path, trailing slashes
removed; `"."` for the empty path, `"/"` for all-slash paths. -/
def filepathBase (p : String) : String :=
  if p = "" then "."
  else
    let s := afterLastSlash (dropTrailingSlashes p.data)
    if s = [] then "/" else ⟨s⟩

/-- Split a character list on `/` into (possibly empty) groups. -/
def splitSlash : List Char → List (List Char)
  | [] => [[]]
  | c :: cs =>
    if c = '/' then [] :: splitSlash cs
    else
      match splitSlash cs with
      | [] => [[c]]
      | g :: gs => (c :: g) :: gs

/-- Split on `/`, keeping no empty components (Go `Clean` skips them). -/
def splitComponents (cs : List Char) : List String :=
  ((splitSlash cs).map (fun g => (⟨g⟩ : String))).filter (fun c => c ≠ "")

/-- The component-stack loop of Go `filepath.Clean` (Unix): drop `.`,
resolve `..` against the stack, keeping leading `..` only when not rooted. -/
def cleanComps (rooted : Bool) : List String → List String → List String
  | [], stack => stack.reverse
  | c :: cs, stack =>
    if c = "." then cleanComps rooted cs stack
    else if c = ".." then
      match stack with
      | top :: rest =>
        if top = ".." then cleanComps rooted cs (c :: top :: rest)
        else cleanComps rooted cs rest
      | [] => if rooted then cleanComps rooted cs [] else cleanComps rooted cs [c]
    else cleanComps rooted cs (c :: stack)

/-- Go `filepath.Clean` (Unix, no volume names): shortest equivalent path. -/
def pathClean (p : String) : String :=
  if p = "" then "."
  else
    let rooted := p.data.head? = some '/'
    let comps := cleanComps rooted (splitComponents p.data) []
    let body := String.intercalate "/" comps
    if rooted then "/" ++ body
    else if body = "" then "." else body

/-- Go `filepath.Dir` (Unix): everything up to the final `/`, cleaned. -/
def filepathDir (p : String) : String := pathClean ⟨upToLastSlash p.data⟩

/-- Go `filepath.Join` for two elements: empty elements are skipped, the
rest are joined with `/` and cleaned; all-empty input yields `""`. -/
def filepathJoin (a b : String) : String :=
  if a = "" then (if b = "" then "" else pathClean b)
  else pathClean (a ++ "/" ++ b)

/-! ## Size catalog (`emoteSizes` in main.go, identical in both variants) -/

/-- `EmoteSize` from main.go: a target emote size with platform and dimensions. -/
structure EmoteSize where
  Platform : String
  Name : String
  Width : Nat
  Height : Nat
deriving DecidableEq, Repr

/-- The `emoteSizes` table from main.go, in source order. -/
def emoteSizes : List EmoteSize := [
  ⟨"Discord", "Small", 28, 28⟩,
  ⟨"Discord", "Medium", 32, 32⟩,
  ⟨"Discord", "Large", 48, 48⟩,
  ⟨"Discord", "Animated", 128, 128⟩,
  ⟨"Twitch", "1.0", 28, 28⟩,
  ⟨"Twitch", "2.0", 56, 56⟩,
  ⟨"Twitch", "3.0", 112, 112⟩,
  ⟨"7TV", "1x", 32, 32⟩,
  ⟨"7TV", "2x", 64, 64⟩,
  ⟨"7TV", "3x", 96, 96⟩,
  ⟨"7TV", "4x", 128, 128⟩]

/-! ## Extension allow-list check (`selectFile` in main.go, both variants) -/

/-- The `validExts` map of the baseline variant of `selectFile`. -/
def validExtsBaseline : List String := [".jpg", ".jpeg", ".png", ".gif"]

/-- The `validExts` map of the extended variant of `selectFile`. -/
def validExtsExtended : List String :=
  [".jpg", ".jpeg", ".png", ".gif", ".webp", ".webm"]

/-- The acceptance check of `selectFile`: lower-case the path's extension
and look it up in the allow-list (`validExts[ext]`). -/
def validateSelection (exts : List String) (path : String) : Bool :=
  goToLower (filepathExt path) ∈ exts

/-! ## Rasters, file contents and decoders

The stdlib decoders (`jpeg.Decode`, `png.Decode`, `gif.Decode`,
`webp.Decode`) and the sniffing `image.Decode` are library code the
repository only calls; each is modelled from the spec. -/

/-- An in-memory raster, abstracted to its dimensions (the only raster
attribute the claims mention) plus a tag distinguishing source contents. -/
structure Img where
  width : Nat
  height : Nat
deriving DecidableEq, Repr

/-- Image formats a byte stream can actually be, plus WebM video. -/
inductive ImgFormat where
  | jpeg | png | gif | webp | webm
deriving DecidableEq, Repr

/-- The bytes of an input file, abstracted: either a well-formed file of
some format carrying its frames in order, or unparsable garbage. -/
inductive FileContent where
  | valid (fmt : ImgFormat) (frames : List Img) : FileContent
  | garbage : FileContent
deriving DecidableEq, Repr

/-- Modelled from the spec: a single-format stdlib decoder (`jpeg.Decode`,
`png.Decode`, `gif.Decode` or `webp.Decode`, none of which is in this
repository) succeeds exactly on well-formed content of its format and, for
multi-frame content, decodes only the first frame. -/
def formatDecode (fmt : ImgFormat) (c : FileContent) : Except String Img :=
  match c with
  | .valid f (frame :: _) => if f = fmt then .ok frame else .error "invalid format"
  | _ => .error "invalid format"

/-- The formats registered with Go's `image` package by the imports of
main.go: jpeg, png, gif and webp. -/
def registeredFormats : List ImgFormat := [.jpeg, .png, .gif, .webp]

/-- Modelled from the spec: `image.Decode` (stdlib, not in this repository)
sniffs the content and dispatches to whichever registered decoder matches;
it fails when the bytes parse as no registered format. -/
def imageDecode (c : FileContent) : Except String Img :=
  match c with
  | .valid fmt (frame :: _) =>
    if fmt ∈ registeredFormats then .ok frame else .error "unknown format"
  | _ => .error "unknown format"

/-- The decode switch of the baseline `processImage`: dispatch on the
lower-cased extension of the selected file among jpg/jpeg, png, gif;
anything else goes to `image.Decode`. -/
def decodeBaseline (path : String) (c : FileContent) : Except String Img :=
  let ext := goToLower (filepathExt path)
  if ext = ".jpg" ∨ ext = ".jpeg" then formatDecode .jpeg c
  else if ext = ".png" then formatDecode .png c
  else if ext = ".gif" then formatDecode .gif c
  else imageDecode c

/-- The decode switch of the extended `processImage`: as the baseline plus
a `.webp` case using `webp.Decode` and a `.webm` case that falls through to
`image.Decode` (the source comment: "WebM is video format, but we'll try to
decode as image"). -/
def decodeExtended (path : String) (c : FileContent) : Except String Img :=
  let ext := goToLower (filepathExt path)
  if ext = ".jpg" ∨ ext = ".jpeg" then formatDecode .jpeg c
  else if ext = ".png" then formatDecode .png c
  else if ext = ".gif" then formatDecode .gif c
  else if ext = ".webp" then formatDecode .webp c
  else if ext = ".webm" then imageDecode c
  else imageDecode c

/-! ## The Resize-Fill transform -/

/-- Modelled from the spec: the uniform cover scale factor of the
Resize-Fill transform, `max (targetW / srcW) (targetH / srcH)` in exact
rational arithmetic. -/
def coverScale (srcW srcH w h : Nat) : ℚ :=
  max ((w : ℚ) / (srcW : ℚ)) ((h : ℚ) / (srcH : ℚ))

/-- Modelled from the spec: the third-party `imaging.Fill` transform
(`imaging.Fill(img, w, h, imaging.Center, imaging.Lanczos)` in main.go,
library code not in this repository).  A non-positive dimension anywhere
yields the empty raster; otherwise the source is scaled uniformly by
`coverScale` (Lanczos resampling of the pixel contents is abstracted away)
and the result is center-cropped to the target rectangle, the crop being
clipped to the scaled raster's bounds. -/
def fill (src : Img) (w h : Nat) : Img :=
  if w = 0 ∨ h = 0 ∨ src.width = 0 ∨ src.height = 0 then ⟨0, 0⟩
  else
    let s := coverScale src.width src.height w h
    let sw := Nat.ceil ((src.width : ℚ) * s)
    let sh := Nat.ceil ((src.height : ℚ) * s)
    ⟨min w sw, min h sh⟩

/-! ## Filesystem model and the convert run (`processImage`) -/

/-- The filesystem as the conversion code observes it: the directories in
existence and the files present, as an ordered association list from path
to raster content. -/
structure FS where
  dirs : List String
  files : List (String × Img)
deriving DecidableEq, Repr

/-- `os.MkdirAll`: create the directory if absent, succeed silently when it
already exists. -/
def fsMkdir (fs : FS) (d : String) : FS :=
  if d ∈ fs.dirs then fs else { fs with dirs := fs.dirs ++ [d] }

/-- A file write: overwrite in place when the path exists, append otherwise. -/
def fsWrite (fs : FS) (p : String) (im : Img) : FS :=
  if fs.files.any (fun e => e.1 = p) then
    { fs with files := fs.files.map (fun e => if e.1 = p then (p, im) else e) }
  else { fs with files := fs.files ++ [(p, im)] }

/-- Failure injection for the I/O steps of one run: `mkdirErr` is the error
of `os.MkdirAll` (if any) and `saveErr i` the error of the `imaging.Save`
call for catalog entry `i` (if any). -/
structure Oracles where
  mkdirErr : Option String
  saveErr : Nat → Option String

/-- The I/O-free naming computations of `processImage`. -/
def baseFilenameOf (path : String) : String :=
  trimSuffix (filepathBase path) (filepathExt path)

/-- `bundleDir` as computed by `processImage`:
`filepath.Join(filepath.Dir(path), base + "_emote_bundle")`. -/
def bundleDirOf (path : String) : String :=
  filepathJoin (filepathDir path) (baseFilenameOf path ++ "_emote_bundle")

/-- The per-entry output filename of `processImage`:
`"<base>-<platform>-<variant>-<width>x<height>.png"`. -/
def emoteFilename (base : String) (s : EmoteSize) : String :=
  base ++ "-" ++ s.Platform ++ "-" ++ s.Name ++ "-" ++
    toString s.Width ++ "x" ++ toString s.Height ++ ".png"

/-- The result of one `processImage` run: the returned error value, the
filesystem afterwards, and the paths written by this run in write order. -/
structure RunResult where
  ret : Except String Unit
  fs : FS
  written : List String
deriving Repr

/-- The convert loop of `processImage`: for each catalog entry in order,
Resize-Fill the decoded image, build the filename, and save it into the
bundle directory; the first save failure returns immediately, leaving the
files already written in place. -/
def saveLoop (bundleDir base : String) (img : Img) (saveErr : Nat → Option String) :
    List EmoteSize → Nat → FS → RunResult
  | [], _, fs => ⟨.ok (), fs, []⟩
  | s :: rest, i, fs =>
    let resized := fill img s.Width s.Height
    let filename := emoteFilename base s
    let outputPath := filepathJoin bundleDir filename
    match saveErr i with
    | some e => ⟨.error ("failed to save " ++ filename ++ ": " ++ e), fs, []⟩
    | none =>
      let r := saveLoop bundleDir base img saveErr rest (i + 1) (fsWrite fs outputPath resized)
      ⟨r.ret, r.fs, outputPath :: r.written⟩

/-- `processImage` (identical in both variants apart from the decode
switch, passed in as `decode`): decode the selected file, derive the base
filename and bundle directory, create the bundle directory, then run the
convert loop.  A decode failure returns before any directory is created. -/
def processImage (decode : String → FileContent → Except String Img)
    (path : String) (content : FileContent) (orac : Oracles) (fs : FS) : RunResult :=
  match decode path content with
  | .error e => ⟨.error ("failed to decode image: " ++ e), fs, []⟩
  | .ok img =>
    let base := baseFilenameOf path
    let bundleDir := bundleDirOf path
    match orac.mkdirErr with
    | some e => ⟨.error ("failed to create output directory: " ++ e), fs, []⟩
    | none => saveLoop bundleDir base img orac.saveErr emoteSizes 0 (fsMkdir fs bundleDir)

/-- The all-success oracle: no injected I/O failures. -/
def okOracles : Oracles := ⟨none, fun _ => none⟩

/-! ## Supporting lemmas -/

/-- The file names present on the modelled filesystem, in order. -/
def fsNames (fs : FS) : List String := fs.files.map Prod.fst

/-- Repeated writes, in order. -/
def writeAll (fs : FS) (l : List (String × Img)) : FS :=
  l.foldl (fun a e => fsWrite a e.1 e.2) fs

/-- The (path, raster) pairs a fully successful loop over `sizes` writes. -/
def plannedWrites (b base : String) (img : Img) (sizes : List EmoteSize) :
    List (String × Img) :=
  sizes.map fun s => (filepathJoin b (emoteFilename base s), fill img s.Width s.Height)

/-- The paths a fully successful loop over `sizes` writes, in order. -/
def plannedPaths (b base : String) (sizes : List EmoteSize) : List String :=
  sizes.map fun s => filepathJoin b (emoteFilename base s)

theorem fsWrite_dirs (fs : FS) (p : String) (im : Img) :
    (fsWrite fs p im).dirs = fs.dirs := by
  unfold fsWrite; split <;> rfl

theorem fsWrite_names (fs : FS) (p : String) (im : Img) :
    fsNames (fsWrite fs p im) =
      if p ∈ fsNames fs then fsNames fs else fsNames fs ++ [p] := by
  unfold fsWrite fsNames
  by_cases h : fs.files.any (fun e => e.1 = p)
  · have hmem : p ∈ fs.files.map Prod.fst := by
      rcases List.any_eq_true.mp h with ⟨e, he, hp⟩
      have : e.1 = p := by simpa using hp
      exact this ▸ List.mem_map_of_mem Prod.fst he
    rw [if_pos h, if_pos hmem, List.map_map]
    refine List.map_congr_left ?_
    intro e _
    by_cases hp : e.1 = p
    · simp [hp]
    · simp [hp]
  · have hmem : p ∉ fs.files.map Prod.fst := by
      intro hc
      rcases List.mem_map.mp hc with ⟨e, he, hp⟩
      exact h (List.any_eq_true.mpr ⟨e, he, by simpa using hp⟩)
    rw [if_neg h, if_neg hmem]
    simp

theorem writeAll_dirs : ∀ (l : List (String × Img)) (fs : FS),
    (writeAll fs l).dirs = fs.dirs := by
  intro l
  induction l with
  | nil => intro fs; rfl
  | cons e t ih =>
    intro fs
    show (writeAll (fsWrite fs e.1 e.2) t).dirs = fs.dirs
    rw [ih, fsWrite_dirs]

theorem mem_writeAll_names : ∀ (l : List (String × Img)) (fs : FS) (p : String),
    p ∈ fsNames (writeAll fs l) ↔ p ∈ fsNames fs ∨ p ∈ l.map Prod.fst := by
  intro l
  induction l with
  | nil => intro fs p; simp [writeAll]
  | cons e t ih =>
    intro fs p
    show p ∈ fsNames (writeAll (fsWrite fs e.1 e.2) t) ↔ _
    rw [ih, fsWrite_names]
    by_cases h : e.1 ∈ fsNames fs
    · rw [if_pos h]
      constructor
      · rintro (hp | hp)
        · exact Or.inl hp
        · exact Or.inr (List.mem_cons_of_mem _ hp)
      · rintro (hp | hp)
        · exact Or.inl hp
        · rcases List.mem_cons.mp hp with hp | hp
          · exact Or.inl (hp ▸ h)
          · exact Or.inr hp
    · rw [if_neg h]
      constructor
      · rintro (hp | hp)
        · rcases List.mem_append.mp hp with hp | hp
          · exact Or.inl hp
          · exact Or.inr (List.mem_cons.mpr (Or.inl (by simpa using hp)))
        · exact Or.inr (List.mem_cons_of_mem _ hp)
      · rintro (hp | hp)
        · exact Or.inl (List.mem_append.mpr (Or.inl hp))
        · rcases List.mem_cons.mp hp with hp | hp
          · exact Or.inl (List.mem_append.mpr (Or.inr (by simpa using hp)))
          · exact Or.inr hp

theorem writeAll_names_of_subset : ∀ (l : List (String × Img)) (fs : FS),
    (∀ p ∈ l.map Prod.fst, p ∈ fsNames fs) →
    fsNames (writeAll fs l) = fsNames fs := by
  intro l
  induction l with
  | nil => intro fs _; rfl
  | cons e t ih =>
    intro fs hsub
    have h1 : e.1 ∈ fsNames fs := hsub e.1 (List.mem_cons_self _ _)
    have hw : fsNames (fsWrite fs e.1 e.2) = fsNames fs := by
      rw [fsWrite_names, if_pos h1]
    show fsNames (writeAll (fsWrite fs e.1 e.2) t) = fsNames fs
    rw [ih (fsWrite fs e.1 e.2) (fun p hp => hw ▸ hsub p (List.mem_cons_of_mem _ hp)), hw]

theorem mem_fsMkdir_self (fs : FS) (d : String) : d ∈ (fsMkdir fs d).dirs := by
  unfold fsMkdir
  by_cases h : d ∈ fs.dirs
  · rw [if_pos h]; exact h
  · rw [if_neg h]; simp

theorem fsMkdir_of_mem (fs : FS) (d : String) (h : d ∈ fs.dirs) :
    fsMkdir fs d = fs := by
  unfold fsMkdir; rw [if_pos h]

/-- A fully successful `saveLoop` run: it returns success, performs exactly
the planned writes in catalog order, and reports the planned paths. -/
theorem saveLoop_ok (b base : String) (img : Img) (se : Nat → Option String)
    (hse : ∀ j, se j = none) :
    ∀ (sizes : List EmoteSize) (i : Nat) (fs : FS),
    saveLoop b base img se sizes i fs =
      ⟨.ok (), writeAll fs (plannedWrites b base img sizes),
        plannedPaths b base sizes⟩ := by
  intro sizes
  induction sizes with
  | nil => intro i fs; rfl
  | cons s t ih =>
    intro i fs
    show saveLoop b base img se (s :: t) i fs = _
    rw [saveLoop, hse i]
    simp only [ih (i + 1)]
    rfl

/-- A `saveLoop` run whose first save failure is at relative position `k`:
it stops there with the save error for entry `k`, having performed exactly
the writes for the entries before `k`. -/
theorem saveLoop_err (b base : String) (img : Img) (se : Nat → Option String) :
    ∀ (sizes : List EmoteSize) (k i : Nat) (fs : FS) (e : String)
      (hk : k < sizes.length),
      (∀ j, j < k → se (i + j) = none) → se (i + k) = some e →
    saveLoop b base img se sizes i fs =
      ⟨.error ("failed to save " ++ emoteFilename base (sizes.get ⟨k, hk⟩) ++ ": " ++ e),
        writeAll fs (plannedWrites b base img (sizes.take k)),
        plannedPaths b base (sizes.take k)⟩ := by
  intro sizes
  induction sizes with
  | nil => intro k i fs e hk; exact absurd hk (by simp)
  | cons s t ih =>
    intro k i fs e hk hpre hatk
    match k with
    | 0 =>
      have h0 : se i = some e := by simpa using hatk
      show saveLoop b base img se (s :: t) i fs = _
      rw [saveLoop, h0]
      rfl
    | Nat.succ k' =>
      have h0 : se i = none := by simpa using hpre 0 (Nat.succ_pos k')
      have hk' : k' < t.length := Nat.lt_of_succ_lt_succ hk
      have hpre' : ∀ j, j < k' → se (i + 1 + j) = none := by
        intro j hj
        have := hpre (j + 1) (Nat.succ_lt_succ hj)
        simpa [Nat.add_assoc, Nat.add_comm 1 j] using this
      have hatk' : se (i + 1 + k') = some e := by
        simpa [Nat.add_assoc, Nat.add_comm 1 k'] using hatk
      show saveLoop b base img se (s :: t) i fs = _
      rw [saveLoop, h0]
      simp only [ih k' (i + 1) _ e hk' hpre' hatk']
      rfl

/-- For positive source and target dimensions the cover-scaled raster is at
least as wide as the target, so the centered crop is not clipped. -/
theorem fill_dims (src : Img) (w h : Nat) (hw : 0 < w) (hh : 0 < h)
    (hsw : 0 < src.width) (hsh : 0 < src.height) :
    fill src w h = ⟨w, h⟩ := by
  unfold fill
  have hno : ¬(w = 0 ∨ h = 0 ∨ src.width = 0 ∨ src.height = 0) := by omega
  rw [if_neg hno]
  have hswq : (0 : ℚ) < (src.width : ℚ) := by exact_mod_cast hsw
  have hshq : (0 : ℚ) < (src.height : ℚ) := by exact_mod_cast hsh
  have hw1 : (w : ℚ) ≤ (src.width : ℚ) * coverScale src.width src.height w h := by
    calc (w : ℚ) = (src.width : ℚ) * ((w : ℚ) / (src.width : ℚ)) := by
          field_simp
      _ ≤ (src.width : ℚ) * coverScale src.width src.height w h := by
          exact mul_le_mul_of_nonneg_left (le_max_left _ _) (le_of_lt hswq)
  have hh1 : (h : ℚ) ≤ (src.height : ℚ) * coverScale src.width src.height w h := by
    calc (h : ℚ) = (src.height : ℚ) * ((h : ℚ) / (src.height : ℚ)) := by
          field_simp
      _ ≤ (src.height : ℚ) * coverScale src.width src.height w h := by
          exact mul_le_mul_of_nonneg_left (le_max_right _ _) (le_of_lt hshq)
  have hw2 : w ≤ Nat.ceil ((src.width : ℚ) * coverScale src.width src.height w h) := by
    have := le_trans hw1 (Nat.le_ceil _)
    exact_mod_cast this
  have hh2 : h ≤ Nat.ceil ((src.height : ℚ) * coverScale src.width src.height w h) := by
    have := le_trans hh1 (Nat.le_ceil _)
    exact_mod_cast this
  simp only [min_eq_left hw2, min_eq_left hh2]

/-- Appending on the left is injective for strings. -/
theorem string_append_left_cancel {a x y : String} (h : a ++ x = a ++ y) : x = y := by
  have hd := congrArg String.data h
  simp only [String.data_append] at hd
  exact String.ext (List.append_cancel_left hd)

/-- The part of an output filename after the `<base>-` prefix. -/
def sizeTag (s : EmoteSize) : String :=
  s.Platform ++ "-" ++ s.Name ++ "-" ++ toString s.Width ++ "x" ++
    toString s.Height ++ ".png"

theorem emoteFilename_eq (base : String) (s : EmoteSize) :
    emoteFilename base s = (base ++ "-") ++ sizeTag s := by
  unfold emoteFilename sizeTag
  apply String.ext
  simp [String.data_append, List.append_assoc]

theorem plannedWrites_names (b base : String) (img : Img) (sizes : List EmoteSize) :
    (plannedWrites b base img sizes).map Prod.fst = plannedPaths b base sizes := by
  simp [plannedWrites, plannedPaths, List.map_map, Function.comp]

/-- A fully successful `processImage` run, in closed form: decode succeeded,
directory creation succeeded, every save succeeded. -/
theorem processImage_ok (decode : String → FileContent → Except String Img)
    (path : String) (content : FileContent) (orac : Oracles) (fs : FS) (img : Img)
    (hdec : decode path content = .ok img)
    (hmk : orac.mkdirErr = none) (hsv : ∀ j, orac.saveErr j = none) :
    processImage decode path content orac fs =
      ⟨.ok (), writeAll (fsMkdir fs (bundleDirOf path))
          (plannedWrites (bundleDirOf path) (baseFilenameOf path) img emoteSizes),
        plannedPaths (bundleDirOf path) (baseFilenameOf path) emoteSizes⟩ := by
  simp only [processImage, hdec, hmk]
  exact saveLoop_ok _ _ _ _ hsv _ _ _

/-! ## Claims -/

/-- C1: for every input whose decode succeeds, a fully successful convert
run writes exactly one PNG file per catalog entry into
`<inputDir>/<inputBaseName>_emote_bundle/`, each named
`<inputBaseName>-<platform>-<variant>-<width>x<height>.png`, and in
particular `convert("cat.png")` targets directory `cat_emote_bundle` with
exactly 11 files. -/
theorem c1_bundle_filenames (decode : String → FileContent → Except String Img)
    (path : String) (content : FileContent) (orac : Oracles) (fs : FS) (img : Img)
    (hdec : decode path content = .ok img)
    (hmk : orac.mkdirErr = none) (hsv : ∀ j, orac.saveErr j = none) :
    (processImage decode path content orac fs).ret = .ok () ∧
    (processImage decode path content orac fs).written =
      emoteSizes.map (fun s =>
        filepathJoin (bundleDirOf path) (emoteFilename (baseFilenameOf path) s)) ∧
    (processImage decode path content orac fs).written.length = 11 ∧
    bundleDirOf "cat.png" = "cat_emote_bundle" ∧
    emoteFilename (baseFilenameOf "cat.png") ⟨"Discord", "Small", 28, 28⟩ =
      "cat-Discord-Small-28x28.png" := by
  rw [processImage_ok decode path content orac fs img hdec hmk hsv]
  refine ⟨rfl, rfl, ?_, by decide, by decide⟩
  simp [plannedPaths, emoteSizes]

/-- Closed instance of `c1_bundle_filenames` at `cat.png`. -/
theorem c1_bundle_filenames_witness :
    decodeBaseline "cat.png" (.valid .png [⟨100, 60⟩]) = .ok ⟨100, 60⟩ ∧
    okOracles.mkdirErr = none ∧
    ((processImage decodeBaseline "cat.png" (.valid .png [⟨100, 60⟩]) okOracles
        ⟨[], []⟩).ret = .ok () ∧
      (processImage decodeBaseline "cat.png" (.valid .png [⟨100, 60⟩]) okOracles
          ⟨[], []⟩).written =
        emoteSizes.map (fun s =>
          filepathJoin (bundleDirOf "cat.png")
            (emoteFilename (baseFilenameOf "cat.png") s)) ∧
      (processImage decodeBaseline "cat.png" (.valid .png [⟨100, 60⟩]) okOracles
          ⟨[], []⟩).written.length = 11 ∧
      bundleDirOf "cat.png" = "cat_emote_bundle" ∧
      emoteFilename (baseFilenameOf "cat.png") ⟨"Discord", "Small", 28, 28⟩ =
        "cat-Discord-Small-28x28.png") :=
  ⟨rfl, rfl,
    c1_bundle_filenames decodeBaseline "cat.png" (.valid .png [⟨100, 60⟩]) okOracles
      ⟨[], []⟩ ⟨100, 60⟩ rfl rfl (fun _ => rfl)⟩

/-- C2: for every catalog entry and every source raster with positive
dimensions, the Resize-Fill transform (scale by the cover factor
`max (targetW / srcW) (targetH / srcH)` then center-crop) returns a raster
of exactly the target dimensions. -/
theorem c2_fill_dimensions (s : EmoteSize) (hs : s ∈ emoteSizes) (src : Img)
    (hw : 0 < src.width) (hh : 0 < src.height) :
    fill src s.Width s.Height = ⟨s.Width, s.Height⟩ := by
  have hpos : ∀ t ∈ emoteSizes, 0 < t.Width ∧ 0 < t.Height := by decide
  exact fill_dims src s.Width s.Height (hpos s hs).1 (hpos s hs).2 hw hh

/-- Closed instance of `c2_fill_dimensions` at the first catalog entry. -/
theorem c2_fill_dimensions_witness :
    (⟨"Discord", "Small", 28, 28⟩ : EmoteSize) ∈ emoteSizes ∧
    fill ⟨100, 60⟩ 28 28 = ⟨28, 28⟩ :=
  ⟨by decide,
    c2_fill_dimensions ⟨"Discord", "Small", 28, 28⟩ (by decide) ⟨100, 60⟩
      (by decide) (by decide)⟩

/-- C5: when the input bytes cannot be decoded, `processImage` returns the
decode failure with the filesystem untouched — zero files written and no
bundle directory created, as decoding happens before directory creation. -/
theorem c5_decode_failure_no_side_effects
    (decode : String → FileContent → Except String Img)
    (path : String) (content : FileContent) (orac : Oracles) (fs : FS) (e : String)
    (hdec : decode path content = .error e) :
    processImage decode path content orac fs =
      ⟨.error ("failed to decode image: " ++ e), fs, []⟩ := by
  simp only [processImage, hdec]

/-- Closed instance of `c5_decode_failure_no_side_effects`: a `.png`-named
file with garbage bytes. -/
theorem c5_decode_failure_no_side_effects_witness :
    decodeBaseline "bad.png" .garbage = .error "invalid format" ∧
    processImage decodeBaseline "bad.png" .garbage okOracles ⟨[], []⟩ =
      ⟨.error ("failed to decode image: " ++ "invalid format"), ⟨[], []⟩, []⟩ :=
  ⟨rfl,
    c5_decode_failure_no_side_effects decodeBaseline "bad.png" .garbage okOracles
      ⟨[], []⟩ "invalid format" rfl⟩

/-- C3: `validateSelection` accepts a path exactly when its extension,
lower-cased, is in the allow-list — {jpg, jpeg, png, gif} in the baseline
variant, plus {webp, webm} in the extended one; `clip.mp4` is rejected and
`art.jpeg` accepted by both, with no inspection beyond the path. -/
theorem c3_validate_selection :
    (∀ path : String, validateSelection validExtsBaseline path = true ↔
      ∃ e ∈ (["jpg", "jpeg", "png", "gif"] : List String),
        goToLower (filepathExt path) = "." ++ e) ∧
    (∀ path : String, validateSelection validExtsExtended path = true ↔
      ∃ e ∈ (["jpg", "jpeg", "png", "gif", "webp", "webm"] : List String),
        goToLower (filepathExt path) = "." ++ e) ∧
    validateSelection validExtsBaseline "clip.mp4" = false ∧
    validateSelection validExtsBaseline "art.jpeg" = true ∧
    validateSelection validExtsExtended "clip.mp4" = false ∧
    validateSelection validExtsExtended "art.jpeg" = true := by
  refine ⟨?_, ?_, by decide, by decide, by decide, by decide⟩
  · intro path
    constructor
    · intro h
      have h' : goToLower (filepathExt path) ∈ validExtsBaseline := by
        simpa [validateSelection] using h
      have h'' : goToLower (filepathExt path) = ".jpg" ∨
          goToLower (filepathExt path) = ".jpeg" ∨
          goToLower (filepathExt path) = ".png" ∨
          goToLower (filepathExt path) = ".gif" := by
        simpa [validExtsBaseline] using h'
      rcases h'' with h1 | h1 | h1 | h1
      · exact ⟨"jpg", by decide, by rw [h1]; decide⟩
      · exact ⟨"jpeg", by decide, by rw [h1]; decide⟩
      · exact ⟨"png", by decide, by rw [h1]; decide⟩
      · exact ⟨"gif", by decide, by rw [h1]; decide⟩
    · rintro ⟨e, he, hx⟩
      have he' : e = "jpg" ∨ e = "jpeg" ∨ e = "png" ∨ e = "gif" := by
        simpa using he
      rcases he' with h1 | h1 | h1 | h1 <;> subst h1 <;>
        simp [validateSelection, validExtsBaseline, hx]
  · intro path
    constructor
    · intro h
      have h' : goToLower (filepathExt path) ∈ validExtsExtended := by
        simpa [validateSelection] using h
      have h'' : goToLower (filepathExt path) = ".jpg" ∨
          goToLower (filepathExt path) = ".jpeg" ∨
          goToLower (filepathExt path) = ".png" ∨
          goToLower (filepathExt path) = ".gif" ∨
          goToLower (filepathExt path) = ".webp" ∨
          goToLower (filepathExt path) = ".webm" := by
        simpa [validExtsExtended] using h'
      rcases h'' with h1 | h1 | h1 | h1 | h1 | h1
      · exact ⟨"jpg", by decide, by rw [h1]; decide⟩
      · exact ⟨"jpeg", by decide, by rw [h1]; decide⟩
      · exact ⟨"png", by decide, by rw [h1]; decide⟩
      · exact ⟨"gif", by decide, by rw [h1]; decide⟩
      · exact ⟨"webp", by decide, by rw [h1]; decide⟩
      · exact ⟨"webm", by decide, by rw [h1]; decide⟩
    · rintro ⟨e, he, hx⟩
      have he' : e = "jpg" ∨ e = "jpeg" ∨ e = "png" ∨ e = "gif" ∨
          e = "webp" ∨ e = "webm" := by
        simpa using he
      rcases he' with h1 | h1 | h1 | h1 | h1 | h1 <;> subst h1 <;>
        simp [validateSelection, validExtsExtended, hx]

/-- C4: with decode and directory creation successful, the first save
failure — at catalog position `k` — is the failure `processImage` reports;
the entries after `k` are not processed (the written list stops at `k`) and
the files written for entries before `k` remain on the filesystem. -/
theorem c4_first_failure_aborts (decode : String → FileContent → Except String Img)
    (path : String) (content : FileContent) (orac : Oracles) (fs : FS) (img : Img)
    (k : Nat) (e : String)
    (hdec : decode path content = .ok img) (hmk : orac.mkdirErr = none)
    (hk : k < emoteSizes.length)
    (hpre : ∀ j, j < k → orac.saveErr j = none) (hfail : orac.saveErr k = some e) :
    (processImage decode path content orac fs).ret =
      .error ("failed to save " ++
        emoteFilename (baseFilenameOf path) (emoteSizes.get ⟨k, hk⟩) ++ ": " ++ e) ∧
    (processImage decode path content orac fs).written =
      (emoteSizes.take k).map (fun s =>
        filepathJoin (bundleDirOf path) (emoteFilename (baseFilenameOf path) s)) ∧
    ∀ p ∈ (processImage decode path content orac fs).written,
      p ∈ fsNames (processImage decode path content orac fs).fs := by
  have hrun : processImage decode path content orac fs =
      ⟨.error ("failed to save " ++
          emoteFilename (baseFilenameOf path) (emoteSizes.get ⟨k, hk⟩) ++ ": " ++ e),
        writeAll (fsMkdir fs (bundleDirOf path))
          (plannedWrites (bundleDirOf path) (baseFilenameOf path) img (emoteSizes.take k)),
        plannedPaths (bundleDirOf path) (baseFilenameOf path) (emoteSizes.take k)⟩ := by
    simp only [processImage, hdec, hmk]
    exact saveLoop_err _ _ _ _ emoteSizes k 0 _ e hk
      (fun j hj => by simpa using hpre j hj) (by simpa using hfail)
  rw [hrun]
  refine ⟨rfl, rfl, ?_⟩
  intro p hp
  refine (mem_writeAll_names _ _ _).mpr (Or.inr ?_)
  rw [plannedWrites_names]
  exact hp

/-- Closed instance of `c4_first_failure_aborts`: the save of catalog
entry 2 (Discord Large) fails; the two files before it stay in place. -/
theorem c4_first_failure_aborts_witness :
    decodeBaseline "cat.png" (.valid .png [⟨100, 60⟩]) = .ok ⟨100, 60⟩ ∧
    (2 : Nat) < emoteSizes.length ∧
    ((processImage decodeBaseline "cat.png" (.valid .png [⟨100, 60⟩])
        ⟨none, fun j => if j = 2 then some "disk full" else none⟩ ⟨[], []⟩).ret =
      .error ("failed to save " ++
        emoteFilename (baseFilenameOf "cat.png")
          (emoteSizes.get ⟨2, by decide⟩) ++ ": " ++ "disk full") ∧
    (processImage decodeBaseline "cat.png" (.valid .png [⟨100, 60⟩])
        ⟨none, fun j => if j = 2 then some "disk full" else none⟩ ⟨[], []⟩).written =
      (emoteSizes.take 2).map (fun s =>
        filepathJoin (bundleDirOf "cat.png")
          (emoteFilename (baseFilenameOf "cat.png") s)) ∧
    ∀ p ∈ (processImage decodeBaseline "cat.png" (.valid .png [⟨100, 60⟩])
        ⟨none, fun j => if j = 2 then some "disk full" else none⟩ ⟨[], []⟩).written,
      p ∈ fsNames (processImage decodeBaseline "cat.png" (.valid .png [⟨100, 60⟩])
        ⟨none, fun j => if j = 2 then some "disk full" else none⟩ ⟨[], []⟩).fs) :=
  ⟨rfl, by decide,
    c4_first_failure_aborts decodeBaseline "cat.png" (.valid .png [⟨100, 60⟩])
      ⟨none, fun j => if j = 2 then some "disk full" else none⟩ ⟨[], []⟩ ⟨100, 60⟩
      2 "disk full" rfl rfl (by decide) (by decide) rfl⟩

/-- C6: the size catalog is exactly the required ordered sequence of 11
entries, no two entries share a (platform, variant) pair, and consequently
no two entries collide in output filename for any base name. -/
theorem c6_catalog_exact_and_unique :
    emoteSizes = [
      ⟨"Discord", "Small", 28, 28⟩, ⟨"Discord", "Medium", 32, 32⟩,
      ⟨"Discord", "Large", 48, 48⟩, ⟨"Discord", "Animated", 128, 128⟩,
      ⟨"Twitch", "1.0", 28, 28⟩, ⟨"Twitch", "2.0", 56, 56⟩,
      ⟨"Twitch", "3.0", 112, 112⟩,
      ⟨"7TV", "1x", 32, 32⟩, ⟨"7TV", "2x", 64, 64⟩,
      ⟨"7TV", "3x", 96, 96⟩, ⟨"7TV", "4x", 128, 128⟩] ∧
    (emoteSizes.map fun s => (s.Platform, s.Name)).Nodup ∧
    ∀ base : String, (emoteSizes.map fun s => emoteFilename base s).Nodup := by
  refine ⟨rfl, by decide, ?_⟩
  intro base
  have h2 : emoteSizes.map (fun s => emoteFilename base s) =
      (emoteSizes.map sizeTag).map (fun t => (base ++ "-") ++ t) := by
    rw [List.map_map]
    exact List.map_congr_left (fun s _ => emoteFilename_eq base s)
  rw [h2]
  exact List.Nodup.map (fun t₁ t₂ h => string_append_left_cancel h) (by decide)

/-- C7: the extended decode switch dispatches the lower-cased extension
hint to the matching decoder among jpeg, png, gif and webp, and any hint
outside that set falls back to content-sniffing `image.Decode` over the
same registered format set; a multi-frame gif decodes to its first frame. -/
theorem c7_decode_dispatch (path : String) (c : FileContent) :
    ((goToLower (filepathExt path) = ".jpg" ∨ goToLower (filepathExt path) = ".jpeg") →
      decodeExtended path c = formatDecode .jpeg c) ∧
    (goToLower (filepathExt path) = ".png" →
      decodeExtended path c = formatDecode .png c) ∧
    (goToLower (filepathExt path) = ".gif" →
      decodeExtended path c = formatDecode .gif c) ∧
    (goToLower (filepathExt path) = ".webp" →
      decodeExtended path c = formatDecode .webp c) ∧
    (goToLower (filepathExt path) ∉
        ([".jpg", ".jpeg", ".png", ".gif", ".webp"] : List String) →
      decodeExtended path c = imageDecode c) ∧
    (∀ (frame : Img) (rest : List Img),
      formatDecode .gif (.valid .gif (frame :: rest)) = .ok frame) := by
  refine ⟨?_, ?_, ?_, ?_, ?_, fun frame rest => rfl⟩
  · intro h
    unfold decodeExtended
    rw [if_pos h]
  · intro h
    unfold decodeExtended
    rw [if_neg (by rw [h]; decide), if_pos h]
  · intro h
    unfold decodeExtended
    rw [if_neg (by rw [h]; decide), if_neg (by rw [h]; decide), if_pos h]
  · intro h
    unfold decodeExtended
    rw [if_neg (by rw [h]; decide), if_neg (by rw [h]; decide),
      if_neg (by rw [h]; decide), if_pos h]
  · intro h
    have h1 : ¬(goToLower (filepathExt path) = ".jpg" ∨
        goToLower (filepathExt path) = ".jpeg") := by
      rintro (hc | hc) <;> exact h (by rw [hc]; decide)
    have h2 : goToLower (filepathExt path) ≠ ".png" := fun hc => h (by rw [hc]; decide)
    have h3 : goToLower (filepathExt path) ≠ ".gif" := fun hc => h (by rw [hc]; decide)
    have h4 : goToLower (filepathExt path) ≠ ".webp" := fun hc => h (by rw [hc]; decide)
    unfold decodeExtended
    rw [if_neg h1, if_neg h2, if_neg h3, if_neg h4, ite_self]

/-- Closed instance of `c7_decode_dispatch`: a `.webm` hint is outside the
dispatch set and goes to content sniffing. -/
theorem c7_decode_dispatch_witness :
    goToLower (filepathExt "clip.webm") ∉
      ([".jpg", ".jpeg", ".png", ".gif", ".webp"] : List String) ∧
    decodeExtended "clip.webm" .garbage = imageDecode .garbage :=
  ⟨by decide, (c7_decode_dispatch "clip.webm" .garbage).2.2.2.2.1 (by decide)⟩

/-- C8 counterexample: `processImage` (the whole of `convert`'s work) hands
the caller only its `error` return value.  Two successful runs on inputs
with different bundle directories and different written file lists return
the very same value `ok ()`, so the value returned to the caller cannot
carry the bundle directory path or the list of written file paths. -/
theorem c8_counterexample :
    (processImage decodeBaseline "cat.png" (.valid .png [⟨100, 60⟩]) okOracles
        ⟨[], []⟩).ret =
      (processImage decodeBaseline "dog.png" (.valid .png [⟨100, 60⟩]) okOracles
        ⟨[], []⟩).ret ∧
    (processImage decodeBaseline "cat.png" (.valid .png [⟨100, 60⟩]) okOracles
        ⟨[], []⟩).ret = .ok () ∧
    bundleDirOf "cat.png" ≠ bundleDirOf "dog.png" ∧
    (processImage decodeBaseline "cat.png" (.valid .png [⟨100, 60⟩]) okOracles
        ⟨[], []⟩).written ≠
      (processImage decodeBaseline "dog.png" (.valid .png [⟨100, 60⟩]) okOracles
        ⟨[], []⟩).written := by
  refine ⟨rfl, rfl, by decide, ?_⟩
  intro hc
  have : (processImage decodeBaseline "cat.png" (.valid .png [⟨100, 60⟩]) okOracles
      ⟨[], []⟩).written.head? =
      (processImage decodeBaseline "dog.png" (.valid .png [⟨100, 60⟩]) okOracles
      ⟨[], []⟩).written.head? := by rw [hc]
  revert this
  decide

/-- C8 amended: on success `convert` signals only success (the unit value)
to the caller, and the files written on disk during the run are exactly one
per catalog entry, listed in catalog order. -/
theorem c8_amended_success_report (decode : String → FileContent → Except String Img)
    (path : String) (content : FileContent) (orac : Oracles) (fs : FS) (img : Img)
    (hdec : decode path content = .ok img)
    (hmk : orac.mkdirErr = none) (hsv : ∀ j, orac.saveErr j = none) :
    (processImage decode path content orac fs).ret = .ok () ∧
    (processImage decode path content orac fs).written =
      emoteSizes.map (fun s =>
        filepathJoin (bundleDirOf path) (emoteFilename (baseFilenameOf path) s)) := by
  rw [processImage_ok decode path content orac fs img hdec hmk hsv]
  exact ⟨rfl, rfl⟩

/-- Closed instance of `c8_amended_success_report` at `dog.png`. -/
theorem c8_amended_success_report_witness :
    decodeBaseline "dog.png" (.valid .png [⟨40, 90⟩]) = .ok ⟨40, 90⟩ ∧
    ((processImage decodeBaseline "dog.png" (.valid .png [⟨40, 90⟩]) okOracles
        ⟨[], []⟩).ret = .ok () ∧
      (processImage decodeBaseline "dog.png" (.valid .png [⟨40, 90⟩]) okOracles
          ⟨[], []⟩).written =
        emoteSizes.map (fun s =>
          filepathJoin (bundleDirOf "dog.png")
            (emoteFilename (baseFilenameOf "dog.png") s))) :=
  ⟨rfl,
    c8_amended_success_report decodeBaseline "dog.png" (.valid .png [⟨40, 90⟩])
      okOracles ⟨[], []⟩ ⟨40, 90⟩ rfl rfl (fun _ => rfl)⟩

/-- C9: converting the same input twice succeeds both times: the second run
finds the bundle directory already present (directory creation is silently
idempotent), writes the same list of paths, overwrites the same-named files
in place, and leaves the same file-name listing and directories behind. -/
theorem c9_rerun_idempotent (decode : String → FileContent → Except String Img)
    (path : String) (content : FileContent) (fs0 : FS) (img : Img)
    (hdec : decode path content = .ok img) :
    (processImage decode path content okOracles fs0).ret = .ok () ∧
    (processImage decode path content okOracles
        (processImage decode path content okOracles fs0).fs).ret = .ok () ∧
    (processImage decode path content okOracles
        (processImage decode path content okOracles fs0).fs).written =
      (processImage decode path content okOracles fs0).written ∧
    fsNames (processImage decode path content okOracles
        (processImage decode path content okOracles fs0).fs).fs =
      fsNames (processImage decode path content okOracles fs0).fs ∧
    (processImage decode path content okOracles
        (processImage decode path content okOracles fs0).fs).fs.dirs =
      (processImage decode path content okOracles fs0).fs.dirs := by
  have hrun : ∀ fs : FS, processImage decode path content okOracles fs =
      ⟨.ok (), writeAll (fsMkdir fs (bundleDirOf path))
          (plannedWrites (bundleDirOf path) (baseFilenameOf path) img emoteSizes),
        plannedPaths (bundleDirOf path) (baseFilenameOf path) emoteSizes⟩ :=
    fun fs => processImage_ok decode path content okOracles fs img hdec rfl (fun _ => rfl)
  set bd := bundleDirOf path
  set base := baseFilenameOf path
  set pw := plannedWrites bd base img emoteSizes with hpw
  set fs1 := writeAll (fsMkdir fs0 bd) pw with hfs1
  have h1 : processImage decode path content okOracles fs0 = ⟨.ok (), fs1, plannedPaths bd base emoteSizes⟩ :=
    hrun fs0
  have hbd : bd ∈ fs1.dirs := by
    rw [hfs1, writeAll_dirs]
    exact mem_fsMkdir_self fs0 bd
  have hmk1 : fsMkdir fs1 bd = fs1 := fsMkdir_of_mem fs1 bd hbd
  have h2 : processImage decode path content okOracles fs1 =
      ⟨.ok (), writeAll fs1 pw, plannedPaths bd base emoteSizes⟩ := by
    rw [hrun fs1, hmk1]
  have hsub : ∀ p ∈ pw.map Prod.fst, p ∈ fsNames fs1 := by
    intro p hp
    rw [hfs1]
    exact (mem_writeAll_names _ _ _).mpr (Or.inr hp)
  have hnames : fsNames (writeAll fs1 pw) = fsNames fs1 :=
    writeAll_names_of_subset pw fs1 hsub
  rw [h1]
  simp only [h2]
  exact ⟨trivial, trivial, trivial, hnames, by rw [writeAll_dirs]⟩

/-- Closed instance of `c9_rerun_idempotent` at `cat.png`. -/
theorem c9_rerun_idempotent_witness :
    decodeBaseline "cat.png" (.valid .png [⟨100, 60⟩]) = .ok ⟨100, 60⟩ ∧
    ((processImage decodeBaseline "cat.png" (.valid .png [⟨100, 60⟩]) okOracles
        ⟨[], []⟩).ret = .ok () ∧
      (processImage decodeBaseline "cat.png" (.valid .png [⟨100, 60⟩]) okOracles
          (processImage decodeBaseline "cat.png" (.valid .png [⟨100, 60⟩]) okOracles
            ⟨[], []⟩).fs).ret = .ok () ∧
      (processImage decodeBaseline "cat.png" (.valid .png [⟨100, 60⟩]) okOracles
          (processImage decodeBaseline "cat.png" (.valid .png [⟨100, 60⟩]) okOracles
            ⟨[], []⟩).fs).written =
        (processImage decodeBaseline "cat.png" (.valid .png [⟨100, 60⟩]) okOracles
          ⟨[], []⟩).written ∧
      fsNames (processImage decodeBaseline "cat.png" (.valid .png [⟨100, 60⟩]) okOracles
          (processImage decodeBaseline "cat.png" (.valid .png [⟨100, 60⟩]) okOracles
            ⟨[], []⟩).fs).fs =
        fsNames (processImage decodeBaseline "cat.png" (.valid .png [⟨100, 60⟩]) okOracles
          ⟨[], []⟩).fs ∧
      (processImage decodeBaseline "cat.png" (.valid .png [⟨100, 60⟩]) okOracles
          (processImage decodeBaseline "cat.png" (.valid .png [⟨100, 60⟩]) okOracles
            ⟨[], []⟩).fs).fs.dirs =
        (processImage decodeBaseline "cat.png" (.valid .png [⟨100, 60⟩]) okOracles
          ⟨[], []⟩).fs.dirs) :=
  ⟨rfl,
    c9_rerun_idempotent decodeBaseline "cat.png" (.valid .png [⟨100, 60⟩])
      ⟨[], []⟩ ⟨100, 60⟩ rfl⟩

/-- C10: in the extended variant a `.webm`-named file is not rejected at
decode: it goes to content-sniffing `image.Decode`, so when its bytes are
actually a supported image format the run succeeds and produces the full
11-file bundle, while genuine WebM (or garbage) bytes fail decode with
nothing written. -/
theorem c10_webm_content_sniffing (path : String)
    (hext : goToLower (filepathExt path) = ".webm")
    (fmt : ImgFormat) (hfmt : fmt ∈ registeredFormats)
    (frame : Img) (rest : List Img) (fs : FS) :
    (processImage decodeExtended path (.valid fmt (frame :: rest)) okOracles fs).ret =
      .ok () ∧
    (processImage decodeExtended path (.valid fmt (frame :: rest)) okOracles
      fs).written.length = 11 ∧
    (∀ (frames : List Img) (orac : Oracles) (fs2 : FS),
      processImage decodeExtended path (.valid .webm frames) orac fs2 =
        ⟨.error ("failed to decode image: " ++ "unknown format"), fs2, []⟩) ∧
    (∀ (orac : Oracles) (fs2 : FS),
      processImage decodeExtended path .garbage orac fs2 =
        ⟨.error ("failed to decode image: " ++ "unknown format"), fs2, []⟩) := by
  have hsniff : ∀ c : FileContent, decodeExtended path c = imageDecode c := by
    intro c
    unfold decodeExtended
    rw [if_neg (by rw [hext]; decide), if_neg (by rw [hext]; decide),
      if_neg (by rw [hext]; decide), if_neg (by rw [hext]; decide), if_pos hext]
  have hdec : decodeExtended path (.valid fmt (frame :: rest)) = .ok frame := by
    rw [hsniff]
    simp [imageDecode, hfmt]
  refine ⟨?_, ?_, ?_, ?_⟩
  · rw [processImage_ok decodeExtended path (.valid fmt (frame :: rest)) okOracles fs
      frame hdec rfl (fun _ => rfl)]
  · rw [processImage_ok decodeExtended path (.valid fmt (frame :: rest)) okOracles fs
      frame hdec rfl (fun _ => rfl)]
    simp [plannedPaths, emoteSizes]
  · intro frames orac fs2
    have hdec2 : decodeExtended path (.valid .webm frames) = .error "unknown format" := by
      rw [hsniff]
      cases frames with
      | nil => rfl
      | cons f r => simp [imageDecode, registeredFormats]
    simp only [processImage, hdec2]
  · intro orac fs2
    have hdec3 : decodeExtended path .garbage = .error "unknown format" := by
      rw [hsniff]
      rfl
    simp only [processImage, hdec3]

/-- Closed instance of `c10_webm_content_sniffing`: `clip.webm` holding PNG
bytes converts fully; `clip.webm` holding WebM video fails decode. -/
theorem c10_webm_content_sniffing_witness :
    goToLower (filepathExt "clip.webm") = ".webm" ∧
    ImgFormat.png ∈ registeredFormats ∧
    ((processImage decodeExtended "clip.webm" (.valid .png [⟨5, 5⟩]) okOracles
        ⟨[], []⟩).ret = .ok () ∧
      (processImage decodeExtended "clip.webm" (.valid .png [⟨5, 5⟩]) okOracles
        ⟨[], []⟩).written.length = 11 ∧
      (∀ (frames : List Img) (orac : Oracles) (fs2 : FS),
        processImage decodeExtended "clip.webm" (.valid .webm frames) orac fs2 =
          ⟨.error ("failed to decode image: " ++ "unknown format"), fs2, []⟩) ∧
      (∀ (orac : Oracles) (fs2 : FS),
        processImage decodeExtended "clip.webm" .garbage orac fs2 =
          ⟨.error ("failed to decode image: " ++ "unknown format"), fs2, []⟩)) :=
  ⟨by decide, by decide,
    c10_webm_content_sniffing "clip.webm" (by decide) .png (by decide) ⟨5, 5⟩ []
      ⟨[], []⟩⟩

end EmoteResize
